import Mathlib

/-!
Verification of the takeout-calc email-receipt parser.

The Python source (src/bak/parse.py, src/takeout_calc/parse.py) is embedded
shallowly: each provider's regular expressions become explicit character-list
matchers, the per-line mutable parse state becomes a fold over the list of
lines, decimals become rationals (Python's `decimal.Decimal` is exact for sums
of `digits.digits` literals, as is `ℚ`), and Python exceptions become an
explicit `PyResult` type.  External library calls (`quopri.decodestring`,
`str(message)`, `bs4.BeautifulSoup(...).prettify()`) are modelled as data
carried by the input: each embedded message part records the result those
calls would produce, and the embedding reproduces the control flow of the
source around them.
-/

namespace TakeoutCalc

/-- Result of a Python expression: a value, or a raised exception (by name). -/
inductive PyResult (α : Type) : Type
  | ok (a : α) : PyResult α
  | exn (name : String) : PyResult α
  deriving Repr, DecidableEq

/-! ### Character classes used by the regular expressions

`\w` is modelled as ASCII alphanumerics plus underscore, `\d` as ASCII digits,
`\s` as Python's whitespace class, and `\p{Sc}` (Unicode currency-symbol
category) as a representative set of currency signs; the claims never depend
on which particular symbols lie in the class. -/

def isWordChar (c : Char) : Bool := c.isAlphanum || c = '_'

def isSc (c : Char) : Bool :=
  c = '$' || c = '£' || c = '€' || c = '¥' || c = '¢' || c = '₹' || c = '₩'

def isPySpace (c : Char) : Bool :=
  c = ' ' || c = '\t' || c = '\n' || c = '\r' || c = '\x0b' || c = '\x0c'

/-- Greedy run of decimal digits (`\d+` with nothing to backtrack into). -/
def takeDigits : List Char → List Char × List Char
  | [] => ([], [])
  | c :: cs =>
      if c.isDigit then
        let (d, r) := takeDigits cs
        (c :: d, r)
      else ([], c :: cs)

/-- Greedy run of whitespace characters (`\s+` / `\s*`). -/
def takeSpaces : List Char → List Char × List Char
  | [] => ([], [])
  | c :: cs =>
      if isPySpace c then
        let (d, r) := takeSpaces cs
        (c :: d, r)
      else ([], c :: cs)

/-- Strip an exact literal from the front, or fail. -/
def dropLit : List Char → List Char → Option (List Char)
  | [], cs => some cs
  | _ :: _, [] => none
  | p :: ps, c :: cs => if p = c then dropLit ps cs else none

/-- Take exactly `n` characters satisfying `p`, as in `\w{8}`. -/
def takeExact (p : Char → Bool) : Nat → List Char → Option (List Char × List Char)
  | 0, cs => some ([], cs)
  | _ + 1, [] => none
  | n + 1, c :: cs =>
      if p c then
        match takeExact p n cs with
        | some (d, r) => some (c :: d, r)
        | none => none
      else none

/-- `\b` immediately after a word character: the next character, if any, is
not a word character.  (Shrinking a greedy `\d+` cannot restore the boundary,
because the boundary would then fall between two digits.) -/
def boundaryAfter : List Char → Bool
  | [] => true
  | c :: _ => !isWordChar c

def digitsToNat (ds : List Char) : Nat :=
  ds.foldl (fun acc c => 10 * acc + (c.toNat - '0'.toNat)) 0

/-- Exact value of the decimal literal `d1.d2`, as `decimal.Decimal` reads it. -/
def decimalVal (d1 d2 : List Char) : ℚ :=
  (digitsToNat d1 : ℚ) + (digitsToNat d2 : ℚ) / (10 : ℚ) ^ d2.length

/-- `\d+\.\d+` at the current position: integer digits, a dot, fraction
digits; returns the two digit runs and the rest of the input. -/
def matchDecimal (cs : List Char) : Option (List Char × List Char × List Char) :=
  match takeDigits cs with
  | ([], _) => none
  | (d1, rest1) =>
      match rest1 with
      | '.' :: rest2 =>
          match takeDigits rest2 with
          | ([], _) => none
          | (d2, rest3) => some (d1, d2, rest3)
      | _ => none

/-- Leftmost match: try `f` at every suffix, left to right. -/
def scanFirst {α : Type} (f : List Char → Option α) : List Char → Option α
  | [] => f []
  | c :: cs =>
      match f (c :: cs) with
      | some a => some a
      | none => scanFirst f cs

/-- Expect one literal character. -/
def expectChar (c : Char) : List Char → Option (List Char)
  | [] => none
  | x :: xs => if x = c then some xs else none

/-- Python's `str.isascii`: every code point below 128 (true on `""`). -/
def pyIsAscii (s : String) : Bool := s.toList.all (fun c => c.toNat < 128)

/-- Python's `str.startswith`. -/
def pyStartsWith (s pre : String) : Bool := decide (pre.toList <+: s.toList)

/-! ### DoorDash line rules (src/bak/parse.py, DoorDashReceipt)

`regex_total = ^Total Charged \p{Sc}(\d+\.\d+)\b`, applied per line via
`findall`; `regex_order_id =
<(https://www.doordash.com/orders/(\w{8}-\w{4}-\w{4}-\w{4}-\w{12}))/>`,
unanchored, `findall`'s first match is the leftmost one. -/

def dd_match_total (line : String) : Option ℚ :=
  match dropLit "Total Charged ".toList line.toList with
  | none => none
  | some cs =>
      match cs with
      | [] => none
      | c :: cs1 =>
          if isSc c then
            match matchDecimal cs1 with
            | some (d1, d2, rest) =>
                if boundaryAfter rest then some (decimalVal d1 d2) else none
            | none => none
          else none

/-- `\w{8}-\w{4}-\w{4}-\w{4}-\w{12}`: the UUID characters and the rest. -/
def matchUuid (cs : List Char) : Option (List Char × List Char) := do
  let (a, r) ← takeExact isWordChar 8 cs
  let r ← expectChar '-' r
  let (b, r) ← takeExact isWordChar 4 r
  let r ← expectChar '-' r
  let (c, r) ← takeExact isWordChar 4 r
  let r ← expectChar '-' r
  let (d, r) ← takeExact isWordChar 4 r
  let r ← expectChar '-' r
  let (e, r) ← takeExact isWordChar 12 r
  pure (a ++ '-' :: b ++ '-' :: c ++ '-' :: d ++ '-' :: e, r)

/-- The order-URL pattern at the current position; captures (url, uuid). -/
def dd_order_at (cs : List Char) : Option (String × String) := do
  let r ← expectChar '<' cs
  let r ← dropLit "https://www.doordash.com/orders/".toList r
  let (u, r) ← matchUuid r
  let r ← expectChar '/' r
  let _ ← expectChar '>' r
  let uuid := String.mk u
  pure ("https://www.doordash.com/orders/" ++ uuid, uuid)

/-- `findall(...)[0]` on one line: the leftmost order-URL match. -/
def dd_match_order (line : String) : Option (String × String) :=
  scanFirst dd_order_at line.toList

/-- Business fields of `DoorDashReceipt` touched by `parse()`. -/
structure DDReceipt where
  cost_total : ℚ
  url : String
  order_id : String
  deriving Repr, DecidableEq

def DDReceipt.start : DDReceipt :=
  { cost_total := 0, url := "Unknown", order_id := "Unknown" }

/-- `DoorDashReceipt.parse_amount`: add the matched decimal, if any. -/
def dd_parse_amount (st : DDReceipt) (line : String) : DDReceipt :=
  match dd_match_total line with
  | some v => { st with cost_total := st.cost_total + v }
  | none => st

/-- `DoorDashReceipt.parse_order_id`: on a match, overwrite url and order_id. -/
def dd_parse_order_id (st : DDReceipt) (line : String) : DDReceipt :=
  match dd_match_order line with
  | some (u, i) => { st with url := u, order_id := i }
  | none => st

def dd_line_step (st : DDReceipt) (line : String) : DDReceipt :=
  dd_parse_order_id (dd_parse_amount st line) line

/-- `DoorDashReceipt.parse`: fold the two per-line rules over the lines. -/
def dd_parse (lines : List String) : DDReceipt :=
  lines.foldl dd_line_step DDReceipt.start

/-! ### Deliveroo line rules (src/bak/parse.py, DeliverooReceipt)

`regex_total = ^\s{2}Total\s+\p{Sc}(\d+\.\d+)$`,
`regex_order_id = Your Receipt for Order \#(\d+)\b`,
`regex_restaurant_name = ^(.*)( has your order!)$`. -/

/-- Python's `$` without MULTILINE: end of string, or just before a final
newline. -/
def endAnchor : List Char → Bool
  | [] => true
  | ['\n'] => true
  | _ => false

def del_match_total (line : String) : Option ℚ :=
  match line.toList with
  | a :: b :: cs =>
      if isPySpace a && isPySpace b then
        match dropLit "Total".toList cs with
        | none => none
        | some r =>
            match takeSpaces r with
            | ([], _) => none
            | (_ :: _, r1) =>
                match r1 with
                | c :: r2 =>
                    if isSc c then
                      match matchDecimal r2 with
                      | some (d1, d2, rest) =>
                          if endAnchor rest then some (decimalVal d1 d2) else none
                      | none => none
                    else none
                | [] => none
      else none
  | _ => none

def del_order_at (cs : List Char) : Option String := do
  let r ← dropLit "Your Receipt for Order #".toList cs
  match takeDigits r with
  | ([], _) => none
  | (ds, rest) => if boundaryAfter rest then some (String.mk ds) else none

def del_match_order (line : String) : Option String :=
  scanFirst del_order_at line.toList

/-- `^(.*)( has your order!)$`: the line (after an optional final newline,
and containing no other newline, since `.` does not cross lines) ends with
the literal suffix; group 1 is everything before it. -/
def del_match_restaurant (line : String) : Option String :=
  let cs := match line.toList.reverse with
    | '\n' :: rest => rest.reverse
    | _ => line.toList
  if cs.contains '\n' then none
  else
    let suff := " has your order!".toList
    if suff.isSuffixOf cs then some (String.mk (cs.take (cs.length - suff.length)))
    else none

/-- Business fields of `DeliverooReceipt` touched by `parse()`. -/
structure DelReceipt where
  cost_total : ℚ
  restaurant : String
  order_id : String
  deriving Repr, DecidableEq

def DelReceipt.start : DelReceipt :=
  { cost_total := 0, restaurant := "Unknown", order_id := "Unknown" }

def del_parse_amount (st : DelReceipt) (line : String) : DelReceipt :=
  match del_match_total line with
  | some v => { st with cost_total := st.cost_total + v }
  | none => st

def del_parse_restaurant (st : DelReceipt) (line : String) : DelReceipt :=
  match del_match_restaurant line with
  | some r => { st with restaurant := r }
  | none => st

/-- `DeliverooReceipt.parse_order_id`: on a match, overwrite order_id. -/
def del_parse_order_id (st : DelReceipt) (line : String) : DelReceipt :=
  match del_match_order line with
  | some i => { st with order_id := i }
  | none => st

def del_line_step (st : DelReceipt) (line : String) : DelReceipt :=
  del_parse_order_id (del_parse_restaurant (del_parse_amount st line) line) line

/-- `DeliverooReceipt.parse`: fold the three per-line rules over the lines. -/
def del_parse (lines : List String) : DelReceipt :=
  lines.foldl del_line_step DelReceipt.start

/-! ### Extractor constructors (DoorDashReceipt.__init__ / DeliverooReceipt.__init__)

Each flattened message leaf seen by the constructor loop is a `MimePart`.
`asString` is `message.as_string()` (equal to `str(message)` in Python);
`qpDecoded` records the result of the external call
`quopri.decodestring(asString).decode("utf-8")`. -/

structure MimePart where
  contentType : String
  transferEncoding : String
  asString : String
  qpDecoded : String
  deriving Repr, DecidableEq

/-- Class-attribute defaults before the constructor loop runs:
`body_as_str = None`, `line_seperator = "\n"`. -/
structure ExtractorInit where
  body_as_str : Option String
  line_seperator : String
  deriving Repr, DecidableEq

def ExtractorInit.start : ExtractorInit := { body_as_str := none, line_seperator := "\n" }

/-- One iteration of `DoorDashReceipt.__init__`'s loop.  Note: the DoorDash
constructor has no `isascii` check and never touches `line_seperator`. -/
def dd_init_step (st : ExtractorInit) (m : MimePart) : ExtractorInit :=
  if pyStartsWith m.contentType "text/plain" then
    if pyStartsWith m.transferEncoding "quoted-printable" then
      { st with body_as_str := some m.qpDecoded }
    else
      { st with body_as_str := some m.asString }
  else st

def dd_init (parts : List MimePart) : ExtractorInit :=
  parts.foldl dd_init_step ExtractorInit.start

/-- One iteration of `DeliverooReceipt.__init__`'s loop: on a quoted-printable
text/plain part whose decoded text is not pure ASCII, `line_seperator`
becomes `"\r\n"` (and is never reset). -/
def del_init_step (st : ExtractorInit) (m : MimePart) : ExtractorInit :=
  if pyStartsWith m.contentType "text/plain" then
    if pyStartsWith m.transferEncoding "quoted-printable" then
      { body_as_str := some m.qpDecoded,
        line_seperator :=
          if !pyIsAscii m.qpDecoded then "\r\n" else st.line_seperator }
    else
      { st with body_as_str := some m.asString }
  else st

def del_init (parts : List MimePart) : ExtractorInit :=
  parts.foldl del_init_step ExtractorInit.start

/-- `DoorDashReceipt` end to end: constructor loop, then `parse()`.
`None.split(...)` raises `AttributeError` when no text/plain part was seen. -/
def dd_parse_full (parts : List MimePart) : PyResult DDReceipt :=
  match (dd_init parts).body_as_str with
  | none => .exn "AttributeError"
  | some b => .ok (dd_parse (b.splitOn (dd_init parts).line_seperator))

/-- `DeliverooReceipt` end to end: constructor loop, then `parse()`. -/
def del_parse_full (parts : List MimePart) : PyResult DelReceipt :=
  match (del_init parts).body_as_str with
  | none => .exn "AttributeError"
  | some b => .ok (del_parse (b.splitOn (del_init parts).line_seperator))

/-! ### Uber Eats amount extraction (src/bak/parse.py, UberReceipt.parse_amount)

`re_currency_sign = \p{Sc}(\d+\.\d+)\b`.  `soup.find_all(name="td",
text=re_currency_sign)` keeps the table-data cells whose string content
matches; the code prints a notice when no cell matches but then indexes
`amounts_found[0]` unconditionally. -/

def uber_currency_at (cs : List Char) : Option ℚ :=
  match cs with
  | [] => none
  | c :: cs1 =>
      if isSc c then
        match matchDecimal cs1 with
        | some (d1, d2, rest) =>
            if boundaryAfter rest then some (decimalVal d1 d2) else none
        | none => none
      else none

/-- `re_currency_sign.search`: leftmost currency-amount match in a string. -/
def uber_currency_first (s : String) : Option ℚ :=
  scanFirst uber_currency_at s.toList

/-- `UberReceipt.parse_amount` over the td-cell strings of the parsed body.
Returns (notice printed?, resulting cost or raised exception). -/
def uber_parse_amount (cells : List String) (cost : ℚ) : Bool × PyResult ℚ :=
  let found := cells.filter (fun c => (uber_currency_first c).isSome)
  let noticed := decide (found.length < 1)
  match found with
  | [] => (noticed, .exn "IndexError")
  | c :: _ =>
      match uber_currency_first c with
      | some v => (noticed, .ok (cost + v))
      | none => (noticed, .exn "AttributeError")

/-! ### MIME traversal and leaf classification (AbstractEmail) -/

/-- A flattened body leaf as seen by `_read_email_text`: either a bare string
payload or a message object.  For a message, `payload` is `get_payload()`
(raw, undecoded) and `decodedPayload` is `get_payload(decode=True)`. -/
inductive Leaf where
  | strP (s : String) : Leaf
  | msgP (contentType transferEncoding payload decodedPayload : String) : Leaf
  deriving Repr, DecidableEq

/-- A node of the raw multipart body tree handed to `_get_email_messages`:
a leaf message, a multipart sub-message, or a bare list/tuple of nodes. -/
inductive MimeTree where
  | item (d : Leaf) : MimeTree
  | multi (payload : List MimeTree) : MimeTree
  | group (items : List MimeTree) : MimeTree
  deriving Repr

/-- `AbstractEmail._get_email_messages`: depth-first, left-to-right
flattening of the body tree, yielding the leaves in traversal order. -/
def get_email_messages : List MimeTree → List Leaf
  | [] => []
  | .item d :: rest => d :: get_email_messages rest
  | .multi l :: rest => get_email_messages l ++ get_email_messages rest
  | .group l :: rest => get_email_messages l ++ get_email_messages rest

def containsSub (needle hay : String) : Bool :=
  decide (needle.toList <:+: hay.toList)

/-- `get_html_text`: `BeautifulSoup(html, parser).prettify()` inside
`try/except AttributeError`.  The argument is the outcome of the external
bs4 call; an `AttributeError` (empty message contents) is recovered as
`None`, any other exception propagates. -/
def get_html_text (r : PyResult String) : PyResult (Option String) :=
  match r with
  | .ok s => .ok (some s)
  | .exn n => if n = "AttributeError" then .ok none else .exn n

def PyResult.map {α β : Type} (f : α → β) : PyResult α → PyResult β
  | .ok a => .ok (f a)
  | .exn n => .exn n

/-- `AbstractEmail._read_email_text`.  `bs4` models
`BeautifulSoup(·, "html5lib").prettify()` on the string it is given.  The
`contentType = "NA"` branch is unreachable for a message leaf, because
`get_content_type()` always returns a `maintype/subtype` string; it is
reached exactly by bare-string leaves. -/
def read_email_text (bs4 : String → PyResult String) :
    Leaf → PyResult (String × String × Option String)
  | .strP s => (get_html_text (bs4 s)).map (fun t => ("NA", "NA", t))
  | .msgP ct enc payload decoded =>
      if containsSub "text/plain" ct && !containsSub "base64" enc then
        .ok (ct, enc, some payload)
      else if containsSub "text/html" ct && !containsSub "base64" enc then
        (get_html_text (bs4 decoded)).map (fun t => (ct, enc, t))
      else if ct = "NA" then
        (get_html_text (bs4 payload)).map (fun t => (ct, enc, t))
      else
        .ok (ct, enc, none)

/-- A list comprehension: the first raised exception aborts the whole list. -/
def pyTraverse {α β : Type} (f : α → PyResult β) : List α → PyResult (List β)
  | [] => .ok []
  | a :: rest =>
      match f a with
      | .exn n => .exn n
      | .ok b => (pyTraverse f rest).map (fun bs => b :: bs)

/-- The raw body of a message: multipart tree, or a single bare payload. -/
inductive MimeBody where
  | single (leaf : Leaf) : MimeBody
  | multipart (payload : List MimeTree) : MimeBody
  deriving Repr

/-- `AbstractEmail.read_email_payload`: flatten (if multipart), then classify
every leaf in order. -/
def read_email_payload (bs4 : String → PyResult String) :
    MimeBody → PyResult (List (String × String × Option String))
  | .single leaf => pyTraverse (read_email_text bs4) [leaf]
  | .multipart payload => pyTraverse (read_email_text bs4) (get_email_messages payload)

/-! ### Sender dispatch and aggregation (src/bak/parse.py, parse) -/

inductive Provider where
  | uber | doordash | deliveroo
  deriving Repr, DecidableEq

/-- The `if/elif` chain on `email_data.sender` in `parse`. -/
def dispatch (sender : String) : Option Provider :=
  if containsSub "uber" sender then some .uber
  else if containsSub "doordash" sender then some .doordash
  else if containsSub "deliveroo" sender then some .deliveroo
  else none

/-- One archived message, for the aggregation loop: its sender, and the
`cost_total` its receipt's `parse()` would produce under each provider. -/
structure BatchMsg where
  sender : String
  cost : Provider → ℚ

/-- Contribution of one message to the running total: `receipt.cost_total`
when a provider was dispatched, nothing (the `continue` path) otherwise. -/
def msg_contrib (m : BatchMsg) : ℚ :=
  match dispatch m.sender with
  | some p => m.cost p
  | none => 0

/-- The running grand total over a batch of messages. -/
def batch_total (msgs : List BatchMsg) : ℚ :=
  msgs.foldl (fun t m => t + msg_contrib m) 0

/-- A part the constructor loop accepts: `Content-Type` starts "text/plain". -/
def isPlainPart (m : MimePart) : Bool := pyStartsWith m.contentType "text/plain"

/-- The body string the constructor selects from an accepted part. -/
def decode_of (m : MimePart) : String :=
  if pyStartsWith m.transferEncoding "quoted-printable" then m.qpDecoded else m.asString

/-! ### Fold lemmas for the per-line parse loops -/

lemma dd_parse_amount_order_id (st : DDReceipt) (l : String) :
    (dd_parse_amount st l).order_id = st.order_id := by
  unfold dd_parse_amount; cases dd_match_total l <;> rfl

lemma dd_parse_amount_url (st : DDReceipt) (l : String) :
    (dd_parse_amount st l).url = st.url := by
  unfold dd_parse_amount; cases dd_match_total l <;> rfl

lemma dd_parse_order_id_cost (st : DDReceipt) (l : String) :
    (dd_parse_order_id st l).cost_total = st.cost_total := by
  unfold dd_parse_order_id
  cases h : dd_match_order l with
  | none => rfl
  | some p => obtain ⟨u, i⟩ := p; rfl

lemma dd_line_step_order_id (st : DDReceipt) (l : String) :
    (dd_line_step st l).order_id
      = ((dd_match_order l).map Prod.snd).getD st.order_id := by
  unfold dd_line_step dd_parse_order_id
  cases h : dd_match_order l with
  | none => simpa using dd_parse_amount_order_id st l
  | some p => obtain ⟨u, i⟩ := p; rfl

lemma dd_line_step_url (st : DDReceipt) (l : String) :
    (dd_line_step st l).url = ((dd_match_order l).map Prod.fst).getD st.url := by
  unfold dd_line_step dd_parse_order_id
  cases h : dd_match_order l with
  | none => simpa using dd_parse_amount_url st l
  | some p => obtain ⟨u, i⟩ := p; rfl

lemma dd_line_step_cost (st : DDReceipt) (l : String) :
    (dd_line_step st l).cost_total = st.cost_total + (dd_match_total l).getD 0 := by
  unfold dd_line_step
  rw [dd_parse_order_id_cost]
  unfold dd_parse_amount
  cases dd_match_total l with
  | none => simp
  | some v => rfl

lemma dd_foldl_order_id (lines : List String) (st : DDReceipt) :
    (List.foldl dd_line_step st lines).order_id
      = ((lines.filterMap dd_match_order).map Prod.snd).getLastD st.order_id := by
  induction lines generalizing st with
  | nil => rfl
  | cons l ls ih =>
      rw [List.foldl_cons, ih, List.filterMap_cons]
      cases h : dd_match_order l with
      | none => rw [dd_line_step_order_id, h]; rfl
      | some p =>
          rw [List.map_cons, List.getLastD_cons, dd_line_step_order_id, h]
          rfl

lemma dd_foldl_url (lines : List String) (st : DDReceipt) :
    (List.foldl dd_line_step st lines).url
      = ((lines.filterMap dd_match_order).map Prod.fst).getLastD st.url := by
  induction lines generalizing st with
  | nil => rfl
  | cons l ls ih =>
      rw [List.foldl_cons, ih, List.filterMap_cons]
      cases h : dd_match_order l with
      | none => rw [dd_line_step_url, h]; rfl
      | some p =>
          rw [List.map_cons, List.getLastD_cons, dd_line_step_url, h]
          rfl

lemma dd_foldl_cost (lines : List String) (st : DDReceipt) :
    (List.foldl dd_line_step st lines).cost_total
      = st.cost_total + (lines.filterMap dd_match_total).sum := by
  induction lines generalizing st with
  | nil => simp
  | cons l ls ih =>
      rw [List.foldl_cons, ih, dd_line_step_cost, List.filterMap_cons]
      cases h : dd_match_total l with
      | none => simp
      | some v => simp only [List.sum_cons, Option.getD_some]; ring

lemma del_parse_amount_order_id (st : DelReceipt) (l : String) :
    (del_parse_amount st l).order_id = st.order_id := by
  unfold del_parse_amount; cases del_match_total l <;> rfl

lemma del_parse_restaurant_order_id (st : DelReceipt) (l : String) :
    (del_parse_restaurant st l).order_id = st.order_id := by
  unfold del_parse_restaurant; cases del_match_restaurant l <;> rfl

lemma del_parse_restaurant_cost (st : DelReceipt) (l : String) :
    (del_parse_restaurant st l).cost_total = st.cost_total := by
  unfold del_parse_restaurant; cases del_match_restaurant l <;> rfl

lemma del_parse_order_id_cost (st : DelReceipt) (l : String) :
    (del_parse_order_id st l).cost_total = st.cost_total := by
  unfold del_parse_order_id; cases del_match_order l <;> rfl

lemma del_line_step_order_id (st : DelReceipt) (l : String) :
    (del_line_step st l).order_id = (del_match_order l).getD st.order_id := by
  unfold del_line_step del_parse_order_id
  cases h : del_match_order l with
  | none =>
      simp only [Option.getD_none]
      rw [del_parse_restaurant_order_id, del_parse_amount_order_id]
  | some i => rfl

lemma del_line_step_cost (st : DelReceipt) (l : String) :
    (del_line_step st l).cost_total = st.cost_total + (del_match_total l).getD 0 := by
  unfold del_line_step
  rw [del_parse_order_id_cost, del_parse_restaurant_cost]
  unfold del_parse_amount
  cases del_match_total l with
  | none => simp
  | some v => rfl

lemma del_foldl_order_id (lines : List String) (st : DelReceipt) :
    (List.foldl del_line_step st lines).order_id
      = (lines.filterMap del_match_order).getLastD st.order_id := by
  induction lines generalizing st with
  | nil => rfl
  | cons l ls ih =>
      rw [List.foldl_cons, ih, List.filterMap_cons]
      cases h : del_match_order l with
      | none => rw [del_line_step_order_id, h]; rfl
      | some i => rw [List.getLastD_cons, del_line_step_order_id, h]; rfl

lemma del_foldl_cost (lines : List String) (st : DelReceipt) :
    (List.foldl del_line_step st lines).cost_total
      = st.cost_total + (lines.filterMap del_match_total).sum := by
  induction lines generalizing st with
  | nil => simp
  | cons l ls ih =>
      rw [List.foldl_cons, ih, del_line_step_cost, List.filterMap_cons]
      cases h : del_match_total l with
      | none => simp
      | some v => simp only [List.sum_cons, Option.getD_some]; ring

/-! ### Fold lemmas for the constructor loops -/

lemma dd_init_step_body (st : ExtractorInit) (m : MimePart) :
    (dd_init_step st m).body_as_str
      = if isPlainPart m then some (decode_of m) else st.body_as_str := by
  unfold dd_init_step isPlainPart decode_of
  split_ifs <;> rfl

lemma dd_init_step_sep (st : ExtractorInit) (m : MimePart) :
    (dd_init_step st m).line_seperator = st.line_seperator := by
  unfold dd_init_step
  split_ifs <;> rfl

lemma del_init_step_body (st : ExtractorInit) (m : MimePart) :
    (del_init_step st m).body_as_str
      = if isPlainPart m then some (decode_of m) else st.body_as_str := by
  unfold del_init_step isPlainPart decode_of
  split_ifs <;> rfl

lemma del_init_step_sep (st : ExtractorInit) (m : MimePart) :
    (del_init_step st m).line_seperator
      = if isPlainPart m && pyStartsWith m.transferEncoding "quoted-printable"
            && !pyIsAscii m.qpDecoded
        then "\r\n" else st.line_seperator := by
  unfold del_init_step isPlainPart
  by_cases hp : pyStartsWith m.contentType "text/plain" <;>
    by_cases hq : pyStartsWith m.transferEncoding "quoted-printable" <;>
      by_cases ha : pyIsAscii m.qpDecoded <;>
        simp [hp, hq, ha]

lemma dd_init_foldl_body (parts : List MimePart) (st : ExtractorInit) :
    (List.foldl dd_init_step st parts).body_as_str
      = ((parts.filter isPlainPart).map (fun m => some (decode_of m))).getLastD
          st.body_as_str := by
  induction parts generalizing st with
  | nil => rfl
  | cons m ps ih =>
      rw [List.foldl_cons, ih, List.filter_cons]
      by_cases hm : isPlainPart m
      · rw [if_pos hm, List.map_cons, List.getLastD_cons, dd_init_step_body, if_pos hm]
      · rw [if_neg hm, dd_init_step_body, if_neg hm]

lemma del_init_foldl_body (parts : List MimePart) (st : ExtractorInit) :
    (List.foldl del_init_step st parts).body_as_str
      = ((parts.filter isPlainPart).map (fun m => some (decode_of m))).getLastD
          st.body_as_str := by
  induction parts generalizing st with
  | nil => rfl
  | cons m ps ih =>
      rw [List.foldl_cons, ih, List.filter_cons]
      by_cases hm : isPlainPart m
      · rw [if_pos hm, List.map_cons, List.getLastD_cons, del_init_step_body, if_pos hm]
      · rw [if_neg hm, del_init_step_body, if_neg hm]

lemma dd_init_foldl_sep (parts : List MimePart) (st : ExtractorInit) :
    (List.foldl dd_init_step st parts).line_seperator = st.line_seperator := by
  induction parts generalizing st with
  | nil => rfl
  | cons m ps ih => rw [List.foldl_cons, ih, dd_init_step_sep]

/-- Which parts flip the Deliveroo line separator to CRLF. -/
def flipsSep (m : MimePart) : Bool :=
  isPlainPart m && pyStartsWith m.transferEncoding "quoted-printable"
    && !pyIsAscii m.qpDecoded

lemma del_init_foldl_sep (parts : List MimePart) (st : ExtractorInit) :
    (List.foldl del_init_step st parts).line_seperator
      = if parts.any flipsSep then "\r\n" else st.line_seperator := by
  induction parts generalizing st with
  | nil => rfl
  | cons m ps ih =>
      rw [List.foldl_cons, ih, List.any_cons]
      by_cases hm : flipsSep m
      · have hs : (del_init_step st m).line_seperator = "\r\n" := by
          rw [del_init_step_sep]; unfold flipsSep at hm; rw [if_pos hm]
        rw [hs, hm]
        by_cases hp : ps.any flipsSep <;> simp [hp]
      · have hs : (del_init_step st m).line_seperator = st.line_seperator := by
          rw [del_init_step_sep]
          unfold flipsSep at hm
          rw [if_neg (by simpa using hm)]
        rw [hs]
        simp [hm]

/-- `getLastD` commutes with `map` when the defaults correspond. -/
lemma map_getLastD {α β : Type} (f : α → β) (l : List α) (a : α) :
    (l.map f).getLastD (f a) = f (l.getLastD a) := by
  induction l generalizing a with
  | nil => rfl
  | cons b t ih => rw [List.map_cons, List.getLastD_cons, List.getLastD_cons]; exact ih b

/-- Bridge between `getLastD none` over `some`-mapped values and
`getLast?.map`. -/
lemma map_some_getLastD {α β : Type} (g : α → β) (l : List α) :
    (l.map (fun m => some (g m))).getLastD none = (l.getLast?).map g := by
  cases l with
  | nil => rfl
  | cons a t =>
      rw [List.map_cons, List.getLastD_cons, map_getLastD (fun m => some (g m)) t a]
      rw [List.getLast?_cons]
      cases ht : t.getLast? with
      | none =>
          rw [List.getLastD_eq_getLast?, ht]
          rfl
      | some b =>
          rw [List.getLastD_eq_getLast?, ht]
          rfl

/-- A `Forall₂` pointwise-match hypothesis determines `filterMap` exactly. -/
lemma filterMap_eq_of_forall₂ {α β : Type} {f : α → Option β}
    {ls : List α} {vs : List β}
    (h : List.Forall₂ (fun l a => f l = some a) ls vs) :
    ls.filterMap f = vs := by
  induction h with
  | nil => rfl
  | cons hlv _ ih => rw [List.filterMap_cons, hlv, ih]

/-! ### Claim theorems -/

/-- C7: multipart flattening is depth-first, left-to-right, and idempotent on
already-flat input: a list of plain leaves is returned exactly, in order;
flattening distributes over concatenation; and a multipart (or list/tuple)
node contributes exactly the flattening of its payload, in place. -/
theorem flatten_depth_first_idempotent :
    (∀ ds : List Leaf, get_email_messages (ds.map MimeTree.item) = ds)
    ∧ (∀ xs ys : List MimeTree,
        get_email_messages (xs ++ ys)
          = get_email_messages xs ++ get_email_messages ys)
    ∧ (∀ l : List MimeTree,
        get_email_messages [MimeTree.multi l] = get_email_messages l)
    ∧ (∀ l : List MimeTree,
        get_email_messages [MimeTree.group l] = get_email_messages l) := by
  refine ⟨?_, ?_, ?_, ?_⟩
  · intro ds
    induction ds with
    | nil => simp [get_email_messages]
    | cons d t ih => rw [List.map_cons]; simpa [get_email_messages] using ih
  · intro xs ys
    induction xs with
    | nil => simp [get_email_messages]
    | cons x t ih =>
        cases x with
        | item d => simp [get_email_messages, ih]
        | multi l => simp [get_email_messages, ih, List.append_assoc]
        | group l => simp [get_email_messages, ih, List.append_assoc]
  · intro l; simp [get_email_messages]
  · intro l; simp [get_email_messages]

/-- C8: HTML rendering recovers from the structural `AttributeError` raised
on empty message contents by returning null instead of propagating, returns
the pretty-printed text otherwise, and a leaf so recovered does not abort the
classification of the message's remaining parts. -/
theorem html_render_error_recovery :
    (get_html_text (.exn "AttributeError") = .ok none)
    ∧ (∀ s : String, get_html_text (.ok s) = .ok (some s))
    ∧ (∀ (bs4 : String → PyResult String) (ct enc payload decoded : String),
        bs4 decoded = PyResult.exn "AttributeError" →
        containsSub "text/plain" ct = false →
        containsSub "text/html" ct = true →
        containsSub "base64" enc = false →
        read_email_text bs4 (.msgP ct enc payload decoded) = .ok (ct, enc, none))
    ∧ (∀ (bs4 : String → PyResult String) (s : String),
        bs4 s = PyResult.exn "AttributeError" →
        read_email_text bs4 (.strP s) = .ok ("NA", "NA", none))
    ∧ (∀ (bs4 : String → PyResult String) (leaf : Leaf) (rest : List Leaf)
        (v : String × String × Option String),
        read_email_text bs4 leaf = .ok v →
        pyTraverse (read_email_text bs4) (leaf :: rest)
          = (pyTraverse (read_email_text bs4) rest).map (fun bs => v :: bs)) := by
  refine ⟨rfl, fun s => rfl, ?_, ?_, ?_⟩
  · intro bs4 ct enc payload decoded h hp hh hb
    simp [read_email_text, hp, hh, hb, h, get_html_text, PyResult.map]
  · intro bs4 s h
    simp [read_email_text, h, get_html_text, PyResult.map]
  · intro bs4 leaf rest v h
    simp [pyTraverse, h]

/-- C8 witness: a leaf whose bs4 parse raises `AttributeError` is classified
with null text, for both the text/html and the bare-string shape. -/
theorem html_render_error_recovery_witness :
    read_email_text (fun _ => PyResult.exn "AttributeError")
        (.msgP "text/html" "7bit" "pay" "dec") = .ok ("text/html", "7bit", none)
    ∧ read_email_text (fun _ => PyResult.exn "AttributeError") (.strP "x")
        = .ok ("NA", "NA", none) :=
  ⟨html_render_error_recovery.2.2.1 _ "text/html" "7bit" "pay" "dec" rfl
      (by decide) (by decide) (by decide),
    html_render_error_recovery.2.2.2.1 _ "x" rfl⟩

/-- C6: leaf classification — a text/plain, non-base64 message part yields
its raw undecoded payload; else a text/html, non-base64 part yields the
HTML-rendered decoded payload; a bare-string leaf (content type "NA") yields
the HTML-rendered string; every other message part yields null text. -/
theorem read_email_text_classification :
    (∀ (bs4 : String → PyResult String) (ct enc payload decoded : String),
        containsSub "text/plain" ct = true → containsSub "base64" enc = false →
        read_email_text bs4 (.msgP ct enc payload decoded)
          = .ok (ct, enc, some payload))
    ∧ (∀ (bs4 : String → PyResult String) (ct enc payload decoded pretty : String),
        containsSub "text/plain" ct = false → containsSub "text/html" ct = true →
        containsSub "base64" enc = false → bs4 decoded = .ok pretty →
        read_email_text bs4 (.msgP ct enc payload decoded)
          = .ok (ct, enc, some pretty))
    ∧ (∀ (bs4 : String → PyResult String) (s pretty : String),
        bs4 s = .ok pretty →
        read_email_text bs4 (.strP s) = .ok ("NA", "NA", some pretty))
    ∧ (∀ (bs4 : String → PyResult String) (ct enc payload decoded : String),
        (containsSub "text/plain" ct = false ∨ containsSub "base64" enc = true) →
        (containsSub "text/html" ct = false ∨ containsSub "base64" enc = true) →
        ct ≠ "NA" →
        read_email_text bs4 (.msgP ct enc payload decoded)
          = .ok (ct, enc, none)) := by
  refine ⟨?_, ?_, ?_, ?_⟩
  · intro bs4 ct enc payload decoded hp hb
    simp [read_email_text, hp, hb]
  · intro bs4 ct enc payload decoded pretty hp hh hb hparse
    simp [read_email_text, hp, hh, hb, hparse, get_html_text, PyResult.map]
  · intro bs4 s pretty hparse
    simp [read_email_text, hparse, get_html_text, PyResult.map]
  · intro bs4 ct enc payload decoded h1 h2 hna
    rcases h1 with h1 | h1 <;> rcases h2 with h2 | h2 <;>
      simp [read_email_text, h1, h2, hna]

/-- C6 witness: the four classification branches at concrete leaves. -/
theorem read_email_text_classification_witness :
    read_email_text (fun s => .ok s) (.msgP "text/plain" "7bit" "raw" "dec")
        = .ok ("text/plain", "7bit", some "raw")
    ∧ read_email_text (fun s => .ok s) (.msgP "text/html" "7bit" "raw" "dec")
        = .ok ("text/html", "7bit", some "dec")
    ∧ read_email_text (fun s => .ok s) (.strP "bare")
        = .ok ("NA", "NA", some "bare")
    ∧ read_email_text (fun s => .ok s) (.msgP "text/plain" "base64" "raw" "dec")
        = .ok ("text/plain", "base64", none) :=
  ⟨read_email_text_classification.1 _ "text/plain" "7bit" "raw" "dec"
      (by decide) (by decide),
    read_email_text_classification.2.1 _ "text/html" "7bit" "raw" "dec" "dec"
      (by decide) (by decide) (by decide) rfl,
    read_email_text_classification.2.2.1 _ "bare" "bare" rfl,
    read_email_text_classification.2.2.2 _ "text/plain" "base64" "raw" "dec"
      (Or.inr (by decide)) (Or.inr (by decide)) (by decide)⟩

/-- C4: dispatch is a pure function of the sender string, tested by substring
in fixed priority order ("uber", then "doordash", then "deliveroo"); with no
match the result is None, and such a message contributes 0 to the running
grand total. -/
theorem dispatch_priority_and_skip :
    (∀ sender : String, containsSub "uber" sender = true →
        dispatch sender = some .uber)
    ∧ (∀ sender : String, containsSub "uber" sender = false →
        containsSub "doordash" sender = true → dispatch sender = some .doordash)
    ∧ (∀ sender : String, containsSub "uber" sender = false →
        containsSub "doordash" sender = false →
        containsSub "deliveroo" sender = true → dispatch sender = some .deliveroo)
    ∧ (∀ sender : String, containsSub "uber" sender = false →
        containsSub "doordash" sender = false →
        containsSub "deliveroo" sender = false → dispatch sender = none)
    ∧ (∀ m : BatchMsg, dispatch m.sender = none → msg_contrib m = 0)
    ∧ (∀ (t : ℚ) (m : BatchMsg), dispatch m.sender = none → t + msg_contrib m = t) := by
  refine ⟨?_, ?_, ?_, ?_, ?_, ?_⟩
  · intro s h; simp [dispatch, h]
  · intro s h1 h2; simp [dispatch, h1, h2]
  · intro s h1 h2 h3; simp [dispatch, h1, h2, h3]
  · intro s h1 h2 h3; simp [dispatch, h1, h2, h3]
  · intro m h; unfold msg_contrib; rw [h]
  · intro t m h; unfold msg_contrib; rw [h]; ring

/-- C4 witness: the spec's four sample senders, and a skipped message adding
nothing to a running total. -/
theorem dispatch_priority_and_skip_witness :
    dispatch "orders@uber.com" = some .uber
    ∧ dispatch "no-reply@doordash.com" = some .doordash
    ∧ dispatch "hello@deliveroo.co.uk" = some .deliveroo
    ∧ dispatch "someone@example.com" = none
    ∧ (7 : ℚ) + msg_contrib ⟨"someone@example.com", fun _ => 5⟩ = 7 :=
  ⟨dispatch_priority_and_skip.1 _ (by decide),
    dispatch_priority_and_skip.2.1 _ (by decide) (by decide),
    dispatch_priority_and_skip.2.2.1 _ (by decide) (by decide) (by decide),
    dispatch_priority_and_skip.2.2.2.1 _ (by decide) (by decide) (by decide),
    dispatch_priority_and_skip.2.2.2.2.2 7 _
      (dispatch_priority_and_skip.2.2.2.1 _ (by decide) (by decide) (by decide))⟩

/-- C3: for a DoorDash or Deliveroo body whose lines each match the
provider's amount rule with values a1..aN, `cost_total` after `parse()` is
the exact sum a1+...+aN — accumulation is additive, never an overwrite, and
`ℚ` arithmetic has no floating-point rounding. -/
theorem amount_additive_exact_sum :
    (∀ (lines : List String) (vals : List ℚ),
        List.Forall₂ (fun l a => dd_match_total l = some a) lines vals →
        (dd_parse lines).cost_total = vals.sum)
    ∧ (∀ (lines : List String) (vals : List ℚ),
        List.Forall₂ (fun l a => del_match_total l = some a) lines vals →
        (del_parse lines).cost_total = vals.sum) := by
  constructor
  · intro lines vals h
    unfold dd_parse
    rw [dd_foldl_cost, filterMap_eq_of_forall₂ h]
    simp [DDReceipt.start]
  · intro lines vals h
    unfold del_parse
    rw [del_foldl_cost, filterMap_eq_of_forall₂ h]
    simp [DelReceipt.start]

/-- C3 witness: the spec's own example, "Total Charged $12.50" plus
"Total Charged $1.00" sums to exactly 13.50, and a Deliveroo total line
yields its exact decimal value. -/
theorem amount_additive_exact_sum_witness :
    (dd_parse ["Total Charged $12.50", "Total Charged $1.00"]).cost_total
      = (27 : ℚ) / 2
    ∧ (del_parse ["  Total  £8.05"]).cost_total = (161 : ℚ) / 20 := by
  constructor
  · have h : List.Forall₂ (fun l a => dd_match_total l = some a)
        ["Total Charged $12.50", "Total Charged $1.00"]
        [decimalVal ['1', '2'] ['5', '0'], decimalVal ['1'] ['0', '0']] :=
      List.Forall₂.cons rfl (List.Forall₂.cons rfl List.Forall₂.nil)
    rw [amount_additive_exact_sum.1 _ _ h]
    have e1 : digitsToNat ['1', '2'] = 12 := rfl
    have e2 : digitsToNat ['5', '0'] = 50 := rfl
    have e3 : digitsToNat ['1'] = 1 := rfl
    have e4 : digitsToNat ['0', '0'] = 0 := rfl
    norm_num [decimalVal, e1, e2, e3, e4]
  · have h : List.Forall₂ (fun l a => del_match_total l = some a)
        ["  Total  £8.05"] [decimalVal ['8'] ['0', '5']] :=
      List.Forall₂.cons rfl List.Forall₂.nil
    rw [amount_additive_exact_sum.2 _ _ h]
    have e1 : digitsToNat ['8'] = 8 := rfl
    have e2 : digitsToNat ['0', '5'] = 5 := rfl
    norm_num [decimalVal, e1, e2]

/-- C1 counterexample: two DoorDash lines match the order-URL rule with
different UUIDs, yet `order_id` after `parse()` is the UUID of the SECOND
matching line, not the first — `parse_order_id` re-assigns on every matching
line.  The Deliveroo extractor re-assigns the same way. -/
theorem order_id_first_match_counterexample :
    dd_match_order
        "<https://www.doordash.com/orders/aaaaaaaa-aaaa-aaaa-aaaa-aaaaaaaaaaaa/>"
      = some ("https://www.doordash.com/orders/aaaaaaaa-aaaa-aaaa-aaaa-aaaaaaaaaaaa",
          "aaaaaaaa-aaaa-aaaa-aaaa-aaaaaaaaaaaa")
    ∧ dd_match_order
        "<https://www.doordash.com/orders/bbbbbbbb-bbbb-bbbb-bbbb-bbbbbbbbbbbb/>"
      = some ("https://www.doordash.com/orders/bbbbbbbb-bbbb-bbbb-bbbb-bbbbbbbbbbbb",
          "bbbbbbbb-bbbb-bbbb-bbbb-bbbbbbbbbbbb")
    ∧ (dd_parse
        ["<https://www.doordash.com/orders/aaaaaaaa-aaaa-aaaa-aaaa-aaaaaaaaaaaa/>",
         "<https://www.doordash.com/orders/bbbbbbbb-bbbb-bbbb-bbbb-bbbbbbbbbbbb/>"]).order_id
      = "bbbbbbbb-bbbb-bbbb-bbbb-bbbbbbbbbbbb"
    ∧ ("bbbbbbbb-bbbb-bbbb-bbbb-bbbbbbbbbbbb" : String)
        ≠ "aaaaaaaa-aaaa-aaaa-aaaa-aaaaaaaaaaaa"
    ∧ (del_parse ["Your Receipt for Order #111", "Your Receipt for Order #222"]).order_id
      = "222" :=
  ⟨rfl, rfl, rfl, by decide, rfl⟩

/-- C1 amended: order-id extraction is last-match-wins across lines: after
`parse()`, `order_id` (and, for DoorDash, `url`) equals the capture from the
LAST line with a match (taking the leftmost match within that line), or
"Unknown" when no line matches. -/
theorem order_id_last_match (lines : List String) :
    (dd_parse lines).order_id
      = ((lines.filterMap dd_match_order).map Prod.snd).getLastD "Unknown"
    ∧ (dd_parse lines).url
      = ((lines.filterMap dd_match_order).map Prod.fst).getLastD "Unknown"
    ∧ (del_parse lines).order_id
      = (lines.filterMap del_match_order).getLastD "Unknown" := by
  refine ⟨?_, ?_, ?_⟩
  · unfold dd_parse; rw [dd_foldl_order_id]; rfl
  · unfold dd_parse; rw [dd_foldl_url]; rfl
  · unfold del_parse; rw [del_foldl_order_id]; rfl

/-- C5 counterexample: a quoted-printable text/plain part whose decoded
text is not pure ASCII still leaves the DoorDash line separator at "\n" —
only the Deliveroo constructor has the isascii check. -/
theorem doordash_separator_counterexample :
    pyIsAscii "Café" = false
    ∧ (dd_init [MimePart.mk "text/plain" "quoted-printable" "raw" "Café"]).line_seperator
      = "\n"
    ∧ ("\n" : String) ≠ "\r\n" :=
  ⟨by decide, by decide, by decide⟩

/-- C5 amended: quoted-printable text/plain parts have their decoded UTF-8
text selected as the body, but only the Deliveroo extractor selects the line
separator: it is "\r\n" exactly when some consumed quoted-printable
text/plain part decodes to non-ASCII text, else "\n"; the DoorDash extractor
always keeps "\n". -/
theorem line_separator_selection (parts : List MimePart) :
    (dd_init parts).line_seperator = "\n"
    ∧ (del_init parts).line_seperator
        = (if parts.any flipsSep then "\r\n" else "\n")
    ∧ (∀ m : MimePart, pyStartsWith m.transferEncoding "quoted-printable" = true →
        decode_of m = m.qpDecoded) := by
  refine ⟨?_, ?_, ?_⟩
  · unfold dd_init; rw [dd_init_foldl_sep]; rfl
  · unfold del_init; rw [del_init_foldl_sep]; rfl
  · intro m h; simp [decode_of, h]

/-- C5 witness: a non-ASCII quoted-printable Deliveroo part flips the
separator to "\r\n", and the selected body is its decoded text. -/
theorem line_separator_selection_witness :
    (del_init [MimePart.mk "text/plain" "quoted-printable" "raw" "Café"]).line_seperator
      = "\r\n"
    ∧ decode_of (MimePart.mk "text/plain" "quoted-printable" "raw" "Café") = "Café" := by
  constructor
  · rw [(line_separator_selection _).2.1]; decide
  · exact (line_separator_selection []).2.2 _ (by decide)

/-- C9: when no part of the email has a Content-Type starting "text/plain",
the DoorDash and Deliveroo constructors leave `body_as_str` at None, and
`parse()` raises (None has no `split`) instead of returning a default
receipt with `cost_total` 0. -/
theorem missing_plaintext_parse_fails :
    ∀ parts : List MimePart, (∀ m ∈ parts, isPlainPart m = false) →
      (dd_init parts).body_as_str = none
      ∧ dd_parse_full parts = .exn "AttributeError"
      ∧ (del_init parts).body_as_str = none
      ∧ del_parse_full parts = .exn "AttributeError" := by
  intro parts h
  have hf : parts.filter isPlainPart = [] := by
    rw [List.filter_eq_nil_iff]
    intro a ha
    simp [h a ha]
  have hdd : (dd_init parts).body_as_str = none := by
    unfold dd_init; rw [dd_init_foldl_body, hf]; rfl
  have hdel : (del_init parts).body_as_str = none := by
    unfold del_init; rw [del_init_foldl_body, hf]; rfl
  refine ⟨hdd, ?_, hdel, ?_⟩
  · unfold dd_parse_full; rw [hdd]
  · unfold del_parse_full; rw [hdel]

/-- C9 witness: an email with only a text/html part makes both extractors'
`parse()` raise. -/
theorem missing_plaintext_parse_fails_witness :
    dd_parse_full [MimePart.mk "text/html" "7bit" "a" "b"] = .exn "AttributeError"
    ∧ del_parse_full [MimePart.mk "text/html" "7bit" "a" "b"] = .exn "AttributeError" :=
  ⟨(missing_plaintext_parse_fails _ (by decide)).2.1,
    (missing_plaintext_parse_fails _ (by decide)).2.2.2⟩

/-- C10: with several text/plain parts, the constructors keep only the LAST
such part in traversal order — each later match overwrites `body_as_str`,
and no concatenation happens; the selected body is that part's
quoted-printable decoding (if so encoded) or its string form. -/
theorem last_plaintext_part_wins (parts : List MimePart) :
    (dd_init parts).body_as_str
      = ((parts.filter isPlainPart).getLast?).map decode_of
    ∧ (del_init parts).body_as_str
      = ((parts.filter isPlainPart).getLast?).map decode_of := by
  constructor
  · unfold dd_init
    rw [dd_init_foldl_body]
    exact map_some_getLastD decode_of _
  · unfold del_init
    rw [del_init_foldl_body]
    exact map_some_getLastD decode_of _

/-- C2 (code defect): with zero table cells matching the currency pattern,
`UberReceipt.parse_amount` prints the notice but then unconditionally indexes
`amounts_found[0]`, raising IndexError — it does NOT return with
`cost_total` unchanged, contrary to the documented recoverable-notice
behaviour. -/
theorem uber_missing_amount_raises :
    uber_parse_amount [] 0 = (true, .exn "IndexError")
    ∧ uber_parse_amount ["Order summary", "no currency here"] 0
      = (true, .exn "IndexError") :=
  ⟨by decide, by decide⟩

end TakeoutCalc
